import Mathlib

/-!
Verification of the mcfly importer (`atuin-client/src/import/mcfly.rs`).

The Rust source is shallowly embedded below:
* machine integers (`i64`) become `Int`; the `i64 → u32` conversion done by
  `try_into().unwrap()` is modelled explicitly with its panic case as `none`;
* `chrono::NaiveDateTime` values decoded from the integer `when_run` column
  are modelled by their second value (an `Int`), since the source schema has
  second resolution and `when_run.timestamp()` is the only operation applied;
* fallible / panicking Rust code returns `Option` (with `none` for a panic)
  or carries an explicit error value;
* `PathBuf` is modelled as `String`; filesystem existence and the process
  environment are passed in as explicit parameters.
-/

/-- Embedding of `struct McFlyEntry` (the SourceRow): the five columns the
importer consumes.  `id` and `exit_code` are `i64` in Rust, modelled as `Int`;
`when_run` is a `NaiveDateTime` decoded from an integer column, modelled by
its second value. -/
structure McFlyEntry where
  id : Int
  when_run : Int
  exit_code : Int
  cmd : String
  dir : String
  deriving Repr, DecidableEq

/-- A UTC timestamp with an explicit nanosecond component, modelling the
`DateTime<Utc>` built by the mapper: `secs` is the value of `.timestamp()`,
`nsecs` the nanosecond component (chrono admits `0 ≤ nsecs < 2_000_000_000`,
values `≥ 1_000_000_000` representing leap seconds). -/
structure Timestamp where
  secs : Int
  nsecs : Nat
  deriving Repr, DecidableEq

/-- Embedding of the `History` record (the CanonicalRecord) restricted to the
fields the importer produces. -/
structure History where
  timestamp : Timestamp
  command : String
  cwd : String
  exit : Int
  duration : Int
  session : Option String
  hostname : Option String
  deriving Repr, DecidableEq

/-- Embedding of `History::new(timestamp, command, cwd, exit, duration,
session, hostname)`. -/
def History.new (timestamp : Timestamp) (command : String) (cwd : String)
    (exit : Int) (duration : Int) (session : Option String)
    (hostname : Option String) : History :=
  ⟨timestamp, command, cwd, exit, duration, session, hostname⟩

/-- Embedding of `mcfly_item.id.try_into().unwrap()` where the target type is
`u32`: succeeds exactly when the `i64` value fits in `u32`, otherwise the
`unwrap` panics (`none`). -/
def i64_to_u32 (x : Int) : Option Nat :=
  if 0 ≤ x ∧ x ≤ 4294967295 then some x.toNat else none

/-- Embedding of `NaiveDateTime::from_timestamp(secs, nsecs)`: panics
(`none`) when the nanosecond argument is not below `2_000_000_000`.  The
second argument here always originates from `.timestamp()` of an existing
`NaiveDateTime`, so chrono's second-range check cannot fire and is not
modelled. -/
def from_timestamp (secs : Int) (nsecs : Nat) : Option Timestamp :=
  if nsecs < 2000000000 then some ⟨secs, nsecs⟩ else none

/-- Embedding of `impl From<McFlyEntry> for History` (the RecordMapper).
`none` models a panic of one of the two `unwrap`-style steps.  On success the
record is `History::new(DateTime::from_utc(dt, Utc), cmd, dir, exit_code, 0,
None, None)` with `dt = from_timestamp(when_run.timestamp(), id as u32)`. -/
def historyFromMcFly (e : McFlyEntry) : Option History := do
  let ns ← i64_to_u32 e.id
  let ts ← from_timestamp e.when_run ns
  pure (History.new ts e.cmd e.dir e.exit_code 0 none none)

/-- Embedding of `McFly::path_candidate`.  `userDirs` models
`UserDirs::new()` (`none` when no home directory can be determined — the
`.unwrap()` then panics, modelled by the outer `none`); `envVar` models
`std::env::var("MCFLY_HISTORY_FILE")` (`none` for `Err`, i.e. unset). -/
def path_candidate (userDirs : Option String) (envVar : Option String) :
    Option String :=
  match userDirs with
  | none => none
  | some home_dir =>
    some (match envVar with
      | some x => x
      | none => home_dir ++ "/.mcfly/history.db")

/-- The error message built by `eyre!` in `McFly::path`. -/
def pathErrMsg : String :=
  "Could not find history file. Try setting $MCFLY_HISTORY_FILE"

/-- Embedding of `McFly::path`.  `existsOnDisk` models `Path::exists`.  The
outer `Option` propagates the panic of `path_candidate`; the inner `Except`
is the Rust `Result`. -/
def path (userDirs : Option String) (envVar : Option String)
    (existsOnDisk : String → Bool) : Option (Except String String) :=
  (path_candidate userDirs envVar).map fun mcfly_path =>
    if existsOnDisk mcfly_path then Except.ok mcfly_path
    else Except.error pathErrMsg

/-- Embedding of `struct McFly`: the importer façade holding the buffered
rows. -/
structure McFly where
  entries : List McFlyEntry
  deriving Repr

/-- Embedding of `hist_from_db_conn`: the single query selects
`id, when_run, exit_code, cmd, dir` from the `commands` table
`order by commands.id`; SQL execution over a table modelled as a row list is
embedded as a sort on `id`. -/
def hist_from_db_conn (table : List McFlyEntry) : List McFlyEntry :=
  table.mergeSort (fun a b => a.id ≤ b.id)

/-- Embedding of `Importer::entries for McFly`: returns `Ok(len)` (the
`Result` never being `Err` is dropped) and, taking `&mut self`, hands the
state back unchanged. -/
def McFly.entriesCount (m : McFly) : Nat × McFly :=
  (m.entries.length, m)

/-- Outcome of `McFly::load`: the sink accepted everything, the sink
returned an error (propagated by `?`), or the `i.into()` conversion
panicked. -/
inductive LoadResult (ε : Type) where
  | ok : LoadResult ε
  | sinkError : ε → LoadResult ε
  | panic : LoadResult ε
  deriving Repr, DecidableEq

/-- The loop of `McFly::load`: `for i in self.entries { h.push(i.into()).await?; }`.
The sink (`Loader`) is modelled by its state `σ` and a `push` function that
returns the updated state and an optional error. -/
def loadGo {σ ε : Type} (push : σ → History → σ × Option ε) :
    List McFlyEntry → σ → σ × LoadResult ε
  | [], s => (s, LoadResult.ok)
  | e :: rest, s =>
    match historyFromMcFly e with
    | none => (s, LoadResult.panic)
    | some h =>
      match push s h with
      | (s', none) => loadGo push rest s'
      | (s', some err) => (s', LoadResult.sinkError err)

/-- Embedding of `Importer::load for McFly` (consumes `self`). -/
def McFly.load {σ ε : Type} (m : McFly) (push : σ → History → σ × Option ε)
    (s : σ) : σ × LoadResult ε :=
  loadGo push m.entries s

/-- A sink test double that records every accepted record in order and never
fails. -/
def collectSink : List History → History → List History × Option Unit :=
  fun acc h => (acc ++ [h], none)

/-- A sink test double that accepts pushes, recording them, until asked to
accept the `k`-th one (1-indexed), at which point it fails with `err`
without recording it. -/
def failAtSink {ε : Type} (err : ε) (k : Nat) :
    List History → History → List History × Option ε :=
  fun acc h => if acc.length + 1 = k then (acc, some err) else (acc ++ [h], none)

/-! ### Helper lemmas -/

lemma filterMap_length_of_isSome {α β : Type} (f : α → Option β) :
    ∀ l : List α, (∀ e ∈ l, (f e).isSome) → (l.filterMap f).length = l.length
  | [], _ => rfl
  | e :: rest, hall => by
    obtain ⟨b, hb⟩ := Option.isSome_iff_exists.mp (hall e (by simp))
    simp only [List.filterMap_cons, hb, List.length_cons]
    rw [filterMap_length_of_isSome f rest (fun x hx => hall x (by simp [hx]))]

lemma loadGo_collect (l : List McFlyEntry) (acc : List History)
    (hall : ∀ e ∈ l, (historyFromMcFly e).isSome) :
    loadGo collectSink l acc =
      (acc ++ l.filterMap historyFromMcFly, LoadResult.ok) := by
  induction l generalizing acc with
  | nil => simp [loadGo]
  | cons e rest ih =>
    obtain ⟨h, hh⟩ := Option.isSome_iff_exists.mp (hall e (by simp))
    rw [loadGo, hh]
    simp only [collectSink]
    rw [ih (acc ++ [h]) (fun x hx => hall x (by simp [hx]))]
    simp [hh]

lemma loadGo_failAt {ε : Type} (err : ε) (k : Nat) :
    ∀ (l : List McFlyEntry) (acc : List History),
    (∀ e ∈ l, (historyFromMcFly e).isSome) →
    acc.length < k → k ≤ acc.length + l.length →
    loadGo (failAtSink err k) l acc =
      (acc ++ (l.take (k - 1 - acc.length)).filterMap historyFromMcFly,
       LoadResult.sinkError err)
  | [], acc, _, h1, h2 => by simp at h2; omega
  | e :: rest, acc, hall, h1, h2 => by
    obtain ⟨h, hh⟩ := Option.isSome_iff_exists.mp (hall e (by simp))
    rw [loadGo, hh]
    by_cases hk : acc.length + 1 = k
    · simp only [failAtSink, if_pos hk]
      have hz : k - 1 - acc.length = 0 := by omega
      simp [hz]
    · simp only [failAtSink, if_neg hk]
      rw [loadGo_failAt err k rest (acc ++ [h])
        (fun x hx => hall x (by simp [hx]))
        (by simp; omega) (by simp at h2 ⊢; omega)]
      have hs : k - 1 - acc.length = (k - 1 - (acc ++ [h]).length) + 1 := by
        simp; omega
      rw [hs, List.take_succ_cons, List.filterMap_cons, hh]
      simp

/-! ### Claims -/

/-- C1 (counterexample): the claim says the SourceRow → CanonicalRecord
mapping is total for every 64-bit `id`; but for `id = -1` the
`id.try_into().unwrap()` to `u32` panics, so the mapping fails. -/
theorem c1_mapping_not_total_cex :
    historyFromMcFly ⟨-1, 1000, 0, "pwd", "/home/x"⟩ = none := by decide

/-- C1 (amended): the mapping succeeds exactly for rows whose `id` lies in
`[0, 2_000_000_000)`: a negative `id` (or one above `u32::MAX`) makes
`try_into().unwrap()` panic, and an `id` in `[2_000_000_000, u32::MAX]`
makes `NaiveDateTime::from_timestamp` reject the nanosecond value. -/
theorem c1_mapping_total_iff (e : McFlyEntry) :
    (historyFromMcFly e).isSome ↔ 0 ≤ e.id ∧ e.id < 2000000000 := by
  simp only [historyFromMcFly, i64_to_u32, from_timestamp]
  by_cases h1 : 0 ≤ e.id ∧ e.id ≤ 4294967295
  · by_cases h2 : e.id.toNat < 2000000000
    · simp [h1, h2]; omega
    · simp [h1, h2]; omega
  · simp [h1]; omega

/-- C2: whenever the mapping succeeds, the produced timestamp's second
component is `when_run`'s second value and its nanosecond component is the
row's `id`. -/
theorem c2_mapped_timestamp (e : McFlyEntry) (h : History)
    (hmap : historyFromMcFly e = some h) :
    h.timestamp.secs = e.when_run ∧ (h.timestamp.nsecs : Int) = e.id := by
  simp only [historyFromMcFly, i64_to_u32, from_timestamp] at hmap
  by_cases h1 : 0 ≤ e.id ∧ e.id ≤ 4294967295
  · by_cases h2 : e.id.toNat < 2000000000
    · simp [h1, h2, History.new] at hmap
      rw [← hmap]
      exact ⟨rfl, by simp; omega⟩
    · simp [h1, h2] at hmap
  · simp [h1] at hmap

/-- C2 witness: the mapping at `id = 5`, `when_run = 1742` yields the
timestamp `(1742 s, 5 ns)`. -/
theorem c2_mapped_timestamp_witness :
    historyFromMcFly ⟨5, 1742, 0, "pwd", "/home/x"⟩ =
      some (History.new ⟨1742, 5⟩ "pwd" "/home/x" 0 0 none none) ∧
    ((History.new ⟨1742, 5⟩ "pwd" "/home/x" 0 0 none none).timestamp.secs = 1742 ∧
     (((History.new ⟨1742, 5⟩ "pwd" "/home/x" 0 0 none none).timestamp.nsecs : Int) = 5)) :=
  ⟨by decide, c2_mapped_timestamp ⟨5, 1742, 0, "pwd", "/home/x"⟩ _ (by decide)⟩

/-- C3: with a home directory available, `path_candidate` returns exactly the
value of `MCFLY_HISTORY_FILE` when that variable is set (any string, no
existence check), and `home/.mcfly/history.db` otherwise. -/
theorem c3_path_candidate_env_or_default (home_dir p : String) :
    path_candidate (some home_dir) (some p) = some p ∧
    path_candidate (some home_dir) none = some (home_dir ++ "/.mcfly/history.db") :=
  ⟨rfl, rfl⟩

/-- C4: `path` returns the candidate when it exists on disk, and otherwise
fails exactly then, with an error message containing the override variable
name `MCFLY_HISTORY_FILE`. -/
theorem c4_path_exists_or_error (userDirs envVar : Option String)
    (existsOnDisk : String → Bool) (p : String)
    (hc : path_candidate userDirs envVar = some p) :
    (existsOnDisk p = true →
      path userDirs envVar existsOnDisk = some (Except.ok p)) ∧
    (existsOnDisk p = false →
      path userDirs envVar existsOnDisk = some (Except.error pathErrMsg)) ∧
    ∃ pre post, pathErrMsg = pre ++ "MCFLY_HISTORY_FILE" ++ post := by
  refine ⟨fun hex => ?_, fun hex => ?_,
    "Could not find history file. Try setting $", "", ?_⟩
  · simp [path, hc, hex]
  · simp [path, hc, hex]
  · rfl

/-- C4 witness: with the override set to `"mc.db"` and a filesystem on which
everything exists, `path` succeeds with `"mc.db"`. -/
theorem c4_path_exists_or_error_witness :
    path_candidate (some "/home/u") (some "mc.db") = some "mc.db" ∧
    (((fun _ => true) : String → Bool) "mc.db" = true →
      path (some "/home/u") (some "mc.db") (fun _ => true) = some (Except.ok "mc.db")) ∧
    (((fun _ => true) : String → Bool) "mc.db" = false →
      path (some "/home/u") (some "mc.db") (fun _ => true) =
        some (Except.error pathErrMsg)) ∧
    ∃ pre post, pathErrMsg = pre ++ "MCFLY_HISTORY_FILE" ++ post :=
  ⟨rfl, c4_path_exists_or_error (some "/home/u") (some "mc.db") (fun _ => true) "mc.db" rfl⟩

/-- C5: a buffer of n rows yields `entries() = n`; an empty buffer yields
`entries() = 0` and a `load` that pushes nothing and returns success. -/
theorem c5_entries_count {σ ε : Type} (l : List McFlyEntry) (n : Nat)
    (hlen : l.length = n) (push : σ → History → σ × Option ε) (s : σ) :
    (McFly.mk l).entriesCount.1 = n ∧
    (McFly.mk []).entriesCount.1 = 0 ∧
    (McFly.mk []).load push s = (s, LoadResult.ok) :=
  ⟨by simpa [McFly.entriesCount] using hlen, rfl, by simp [McFly.load, loadGo]⟩

/-- C5 witness: a two-row buffer reports 2 entries; the empty buffer reports
0 and its `load` into the collecting sink is a no-op success. -/
theorem c5_entries_count_witness :
    [McFlyEntry.mk 1 10 0 "a" "d", McFlyEntry.mk 2 11 0 "b" "d"].length = 2 ∧
    ((McFly.mk [McFlyEntry.mk 1 10 0 "a" "d", McFlyEntry.mk 2 11 0 "b" "d"]).entriesCount.1 = 2 ∧
     (McFly.mk []).entriesCount.1 = 0 ∧
     (McFly.mk []).load collectSink [] = ([], LoadResult.ok)) :=
  ⟨rfl, c5_entries_count
    [McFlyEntry.mk 1 10 0 "a" "d", McFlyEntry.mk 2 11 0 "b" "d"] 2 rfl collectSink []⟩

/-- C6: if the sink fails on the k-th push (1-indexed), `load` surfaces that
failure and exactly the first k−1 mapped records were delivered (and stay
delivered); if every push succeeds, `load` returns success having delivered
every buffered record exactly once, in order. -/
theorem c6_load_sink_failure {ε : Type} (l : List McFlyEntry) (err : ε) (k : Nat)
    (hall : ∀ e ∈ l, (historyFromMcFly e).isSome)
    (hk1 : 1 ≤ k) (hk2 : k ≤ l.length) :
    (McFly.mk l).load (failAtSink err k) [] =
      ((l.take (k - 1)).filterMap historyFromMcFly, LoadResult.sinkError err) ∧
    ((l.take (k - 1)).filterMap historyFromMcFly).length = k - 1 ∧
    (McFly.mk l).load collectSink [] =
      (l.filterMap historyFromMcFly, LoadResult.ok) ∧
    (l.filterMap historyFromMcFly).length = l.length := by
  refine ⟨?_, ?_, ?_, filterMap_length_of_isSome _ l hall⟩
  · have h := loadGo_failAt err k l [] hall
      (by simp only [List.length_nil]; omega)
      (by simp only [List.length_nil]; omega)
    simpa [McFly.load] using h
  · rw [filterMap_length_of_isSome _ _
      (fun x hx => hall x (List.take_subset _ _ hx))]
    rw [List.length_take]
    omega
  · simpa [McFly.load] using loadGo_collect l [] hall

/-- C6 witness: with two well-formed rows and a sink failing on the second
push, `load` fails having delivered exactly the first record; the
never-failing sink receives both records in order. -/
theorem c6_load_sink_failure_witness :
    (∀ e ∈ [McFlyEntry.mk 1 10 0 "a" "d", McFlyEntry.mk 2 11 1 "b" "d"],
      (historyFromMcFly e).isSome) ∧ 1 ≤ 2 ∧ 2 ≤ 2 ∧
    ((McFly.mk [McFlyEntry.mk 1 10 0 "a" "d", McFlyEntry.mk 2 11 1 "b" "d"]).load
        (failAtSink (0 : Nat) 2) [] =
      (([McFlyEntry.mk 1 10 0 "a" "d", McFlyEntry.mk 2 11 1 "b" "d"].take 1).filterMap
          historyFromMcFly, LoadResult.sinkError 0) ∧
     (([McFlyEntry.mk 1 10 0 "a" "d", McFlyEntry.mk 2 11 1 "b" "d"].take 1).filterMap
          historyFromMcFly).length = 1 ∧
     (McFly.mk [McFlyEntry.mk 1 10 0 "a" "d", McFlyEntry.mk 2 11 1 "b" "d"]).load
        collectSink [] =
      ([McFlyEntry.mk 1 10 0 "a" "d", McFlyEntry.mk 2 11 1 "b" "d"].filterMap
          historyFromMcFly, LoadResult.ok) ∧
     ([McFlyEntry.mk 1 10 0 "a" "d", McFlyEntry.mk 2 11 1 "b" "d"].filterMap
          historyFromMcFly).length = 2) :=
  ⟨by decide, by decide, by decide,
    c6_load_sink_failure _ 0 2 (by decide) (by decide) (by decide)⟩

/-- C7: the extraction query returns exactly the table's rows ordered by
ascending `id`, mapping is element-wise in sequence order, and `load`
delivers the buffer in that same order: the delivered sequence preserves the
ascending-`id` order of the SourceRows. -/
theorem c7_order_preserved (table : List McFlyEntry)
    (hall : ∀ e ∈ hist_from_db_conn table, (historyFromMcFly e).isSome) :
    (hist_from_db_conn table).Perm table ∧
    ((hist_from_db_conn table).map McFlyEntry.id).Sorted (· ≤ ·) ∧
    (McFly.mk (hist_from_db_conn table)).load collectSink [] =
      ((hist_from_db_conn table).filterMap historyFromMcFly, LoadResult.ok) ∧
    ((hist_from_db_conn table).filterMap historyFromMcFly).length =
      (hist_from_db_conn table).length := by
  refine ⟨List.mergeSort_perm table _, ?_, ?_, filterMap_length_of_isSome _ _ hall⟩
  · have hs : List.Pairwise (fun a b : McFlyEntry => decide (a.id ≤ b.id) = true)
        (hist_from_db_conn table) :=
      List.sorted_mergeSort
        (fun a b c h1 h2 => by simp only [decide_eq_true_eq] at *; omega)
        (fun a b => by simp only [Bool.or_eq_true, decide_eq_true_eq]; omega)
        table
    rw [List.Sorted, List.pairwise_map]
    exact hs.imp (fun h => by simpa using h)
  · simpa [McFly.load] using loadGo_collect _ [] hall

/-- C7 witness: a two-row table given in descending `id` order is delivered
sorted ascending by `id`. -/
theorem c7_order_preserved_witness :
    (∀ e ∈ hist_from_db_conn [McFlyEntry.mk 2 20 0 "b" "d", McFlyEntry.mk 1 10 0 "a" "d"],
      (historyFromMcFly e).isSome) ∧
    ((hist_from_db_conn [McFlyEntry.mk 2 20 0 "b" "d", McFlyEntry.mk 1 10 0 "a" "d"]).Perm
        [McFlyEntry.mk 2 20 0 "b" "d", McFlyEntry.mk 1 10 0 "a" "d"] ∧
     ((hist_from_db_conn [McFlyEntry.mk 2 20 0 "b" "d", McFlyEntry.mk 1 10 0 "a" "d"]).map
        McFlyEntry.id).Sorted (· ≤ ·) ∧
     (McFly.mk (hist_from_db_conn
        [McFlyEntry.mk 2 20 0 "b" "d", McFlyEntry.mk 1 10 0 "a" "d"])).load collectSink [] =
       ((hist_from_db_conn [McFlyEntry.mk 2 20 0 "b" "d", McFlyEntry.mk 1 10 0 "a" "d"]).filterMap
          historyFromMcFly, LoadResult.ok) ∧
     ((hist_from_db_conn [McFlyEntry.mk 2 20 0 "b" "d", McFlyEntry.mk 1 10 0 "a" "d"]).filterMap
        historyFromMcFly).length =
       (hist_from_db_conn [McFlyEntry.mk 2 20 0 "b" "d", McFlyEntry.mk 1 10 0 "a" "d"]).length) := by
  have hall : ∀ e ∈ hist_from_db_conn
      [McFlyEntry.mk 2 20 0 "b" "d", McFlyEntry.mk 1 10 0 "a" "d"],
      (historyFromMcFly e).isSome := by
    intro e he
    rw [hist_from_db_conn, List.mem_mergeSort] at he
    simp only [List.mem_cons, List.not_mem_nil, or_false] at he
    rcases he with rfl | rfl <;> decide
  exact ⟨hall, c7_order_preserved _ hall⟩

/-- C8: whenever the mapping succeeds, the record's exit code, command and
working directory are the row's values unchanged, the duration is the
sentinel 0, and session and hostname are unset. -/
theorem c8_mapped_fields (e : McFlyEntry) (h : History)
    (hmap : historyFromMcFly e = some h) :
    h.exit = e.exit_code ∧ h.command = e.cmd ∧ h.cwd = e.dir ∧
    h.duration = 0 ∧ h.session = none ∧ h.hostname = none := by
  simp only [historyFromMcFly, i64_to_u32, from_timestamp] at hmap
  by_cases h1 : 0 ≤ e.id ∧ e.id ≤ 4294967295
  · by_cases h2 : e.id.toNat < 2000000000
    · simp [h1, h2, History.new] at hmap
      rw [← hmap]
      exact ⟨rfl, rfl, rfl, rfl, rfl, rfl⟩
    · simp [h1, h2] at hmap
  · simp [h1] at hmap

/-- C8 witness: the mapping at a concrete row passes through exit code,
command and directory, with duration 0 and no session or hostname. -/
theorem c8_mapped_fields_witness :
    historyFromMcFly ⟨7, 99, 3, "ls", "/tmp"⟩ =
      some (History.new ⟨99, 7⟩ "ls" "/tmp" 3 0 none none) ∧
    ((History.new ⟨99, 7⟩ "ls" "/tmp" 3 0 none none).exit = 3 ∧
     (History.new ⟨99, 7⟩ "ls" "/tmp" 3 0 none none).command = "ls" ∧
     (History.new ⟨99, 7⟩ "ls" "/tmp" 3 0 none none).cwd = "/tmp" ∧
     (History.new ⟨99, 7⟩ "ls" "/tmp" 3 0 none none).duration = 0 ∧
     (History.new ⟨99, 7⟩ "ls" "/tmp" 3 0 none none).session = none ∧
     (History.new ⟨99, 7⟩ "ls" "/tmp" 3 0 none none).hostname = none) :=
  ⟨by decide, c8_mapped_fields ⟨7, 99, 3, "ls", "/tmp"⟩ _ (by decide)⟩

/-- C9: `entries` is side-effect-free: it hands the façade state back
unchanged, so a repeated call returns the same count. -/
theorem c9_entries_side_effect_free (m : McFly) :
    m.entriesCount.2 = m ∧
    m.entriesCount.2.entriesCount.1 = m.entriesCount.1 :=
  ⟨rfl, rfl⟩

/-- C10: when no home directory can be determined, `path_candidate` panics
(the `UserDirs::new().unwrap()` runs first), even when the
`MCFLY_HISTORY_FILE` override is set and the home directory would not be
needed. -/
theorem c10_path_candidate_panics_without_home (envVal : String) :
    path_candidate none (some envVal) = none ∧
    path_candidate none none = none :=
  ⟨rfl, rfl⟩
